import Mathlib

/-!
# Verification of the onkyocontrol daemon core

A shallow embedding, in Lean 4, of the live revision of the onkyocontrol
daemon (command.c, receiver.c, onkyo.c, util.c, onkyo.h), together with
theorems settling the specification claims about the per-receiver command
queue, the power gating of queued commands, the 80 ms send pacing, the
status parser, the command translator, the client line framing and the
fake-sleep timers.

Modelling conventions:
* C strings are `List Char` (a byte per `Char`, values < 256); the C-string
  view of a buffer is everything up to the first NUL byte.
* `unsigned long` hash values are `Nat` reduced mod 2^64; `long` and
  `time_t`/`suseconds_t` quantities are unbounded `Int` (the claims under
  consideration only involve values far inside the `long` range, which is
  recorded as an explicit hypothesis whenever an input could be large).
* I/O is modelled by returning the list of lines the code writes to all
  clients (`write_to_connections`), in order; writes are assumed to
  succeed.
* `gettimeofday` results are passed in as an explicit `Timeval` argument.
-/

/-- The NUL byte, terminator of C strings. -/
def NUL : Char := Char.ofNat 0

/-- `struct timeval`: seconds and microseconds, both signed. -/
structure Timeval where
  sec : Int
  usec : Int
deriving Repr, DecidableEq

/-- A `struct timeval` as a number of microseconds. -/
def Timeval.toUsec (t : Timeval) : Int := t.sec * 1000000 + t.usec

/-- One step of the SDBM hash from util.c (`hash_sdbm`):
`hash = c + (hash << 6) + (hash << 16) - hash` on `unsigned long`,
which is `hash * 65599 + c` mod 2^64.  The byte is read through a
(signed, on the reference platform) `char`, then converted to `int`. -/
def sdbmStep (h : Nat) (c : Char) : Nat :=
  let b : Nat := c.toNat % 256
  let cInt : Int := if b < 128 then (b : Int) else (b : Int) - 256
  (((h : Int) * 65599 + cInt) % (2 ^ 64 : Int)).toNat

/-- `hash_sdbm` from util.c, on an already NUL-stripped character list. -/
def hashSdbm (s : List Char) : Nat := s.foldl sdbmStep 0

/-- `hash_sdbm` applied to a Lean string literal. -/
def hashSdbmStr (s : String) : Nat := hashSdbm s.data

/-- The C-string view of a buffer: bytes up to the first NUL. -/
def cString (l : List Char) : List Char := l.takeWhile (fun c => c ≠ NUL)

/-- `strncmp`-style check that `hay` starts with `needle`
(also the building block of `strstr`/`memmem`). -/
def leadsWith : List Char → List Char → Bool
  | [], _ => true
  | _ :: _, [] => false
  | a :: as, b :: bs => a == b && leadsWith as bs

/-- `strstr(hay, needle) != NULL` / `memmem` success: `needle` occurs
somewhere in `hay`. -/
def hasSub (needle : List Char) : List Char → Bool
  | [] => leadsWith needle []
  | c :: t => leadsWith needle (c :: t) || hasSub needle t

/-- `memmem` followed by skipping past the needle: the suffix of `hay`
after the first occurrence of `needle`, or `none` when absent. -/
def afterSub (needle : List Char) : List Char → Option (List Char)
  | [] => if leadsWith needle [] then some [] else none
  | c :: t =>
      if leadsWith needle (c :: t) then some ((c :: t).drop needle.length)
      else afterSub needle t

/-- Represents a command waiting to be sent (`struct cmdqueue` in onkyo.h);
the `next` link is the list structure. -/
structure CEntry where
  hash : Nat
  cmd : String
deriving Repr, DecidableEq

/-- `struct receiver` from onkyo.h (the `fd`, `type` and `next` fields are
transport plumbing and are not part of this model). -/
structure Receiver where
  power : Nat
  cmdsSent : Nat
  msgsReceived : Nat
  lastCmd : Timeval
  zone2Sleep : Timeval
  zone3Sleep : Timeval
  nextSleepUpdate : Timeval
  queue : List CEntry
deriving Repr, DecidableEq

/-- `is_power_command` from command.c: the command text contains
`PWR`, `ZPW` or `PW3` (via `strstr`). -/
def isPowerCommand (cmd : List Char) : Bool :=
  hasSub "PWR".data cmd || hasSub "ZPW".data cmd || hasSub "PW3".data cmd

/-- The duplicate-check-and-append walk of `cmd_attempt` (command.c
lines 93-108): walk the queue; if any node already carries hash `h`,
return the queue unchanged; otherwise link the new entry at the tail. -/
def cmdqInsert (h : Nat) (c : String) : List CEntry → List CEntry
  | [] => [⟨h, c⟩]
  | e :: rest => if e.hash = h then e :: rest else e :: cmdqInsert h c rest

/-- `cmd_attempt` from command.c: reject when the code (`prefix ++ arg`)
would not fit a BUF_SIZE (64) byte buffer with its terminator, otherwise
hash the code and enqueue it unless an equal-hash entry is already
queued.  Returns the C result (`0` ok / `-1` error) and the new queue.
The `!cmd || !arg` NULL check is handled at each call site (`arg` is an
`Option` there). -/
def cmdAttempt (queue : List CEntry) (pre arg : String) : Int × List CEntry :=
  if 64 ≤ (pre ++ arg).length then (-1, queue)
  else (0, cmdqInsert (hashSdbmStr (pre ++ arg)) (pre ++ arg) queue)

/-- `handle_raw` from command.c: enqueue the argument verbatim with an
empty prefix (`cmd_attempt` receives NULL `arg` when no argument). -/
def handleRaw (queue : List CEntry) (arg : Option String) : Int × List CEntry :=
  match arg with
  | none => (-1, queue)
  | some a => cmdAttempt queue "" a

/-- `next_rcvr_command` from receiver.c: pop entries from the head of the
queue, discarding (with a log) any non-power command while the power
bitmask is clear, and return the first sendable command together with
the rest of the queue, or `none` once the queue is exhausted. -/
def nextRcvrCommand (power : Nat) : List CEntry → Option (CEntry × List CEntry)
  | [] => none
  | e :: rest =>
      if power ≠ 0 ∨ isPowerCommand e.cmd.data = true then some (e, rest)
      else nextRcvrCommand power rest

/-- `can_send_command` from onkyo.c: decide whether COMMAND_WAIT (80 ms)
has passed since `last`; when it has not, compute the remaining wait.
`none` models the C return 1 (can send, timeout output untouched);
`some t` models return 0 with `*timeoutval = t`. -/
def canSendCommand (last now : Timeval) : Option Timeval :=
  let secs0 : Int := now.sec - last.sec
  let usecs0 : Int := now.usec - last.usec
  let secs : Int := if usecs0 < 0 then secs0 - 1 else secs0
  let usecs : Int := if usecs0 < 0 then usecs0 + 1000000 else usecs0
  let waitUsec0 : Int := 1000 * 80
  let waitSec : Int := waitUsec0 / 1000000
  let waitUsec : Int := waitUsec0 - waitSec * 1000000
  if secs > waitSec ∨ (secs = waitSec ∧ usecs > waitUsec) then none
  else
    let toSec : Int := waitSec - secs
    let toUsec : Int := waitUsec - usecs
    if toUsec < 0 then some ⟨toSec - 1, toUsec + 1000000⟩
    else some ⟨toSec, toUsec⟩

/-- The connection-dispatch decision in `main` (onkyo.c lines 856-868):
a connection is destroyed exactly when `process_input` returned `-1`
(EOF) or `-2` (failed write); `-3` (buffer overflow) keeps it open. -/
def connCloses (ret : Int) : Bool := ret == -1 || ret == -2

/-- Queues with pairwise distinct hashes (the CmdQueue invariant). -/
def queueHashNodup (q : List CEntry) : Prop := (q.map CEntry.hash).Nodup

theorem cmdqInsert_mem (h : Nat) (c : String) (q : List CEntry)
    (hm : h ∈ q.map CEntry.hash) : cmdqInsert h c q = q := by
  induction q with
  | nil => simp at hm
  | cons e rest ih =>
      simp only [List.map_cons, List.mem_cons] at hm
      by_cases he : e.hash = h
      · simp [cmdqInsert, he]
      · rcases hm with hm | hm
        · exact absurd hm.symm he
        · simp [cmdqInsert, he, ih hm]

theorem cmdqInsert_not_mem (h : Nat) (c : String) (q : List CEntry)
    (hm : h ∉ q.map CEntry.hash) : cmdqInsert h c q = q ++ [⟨h, c⟩] := by
  induction q with
  | nil => simp [cmdqInsert]
  | cons e rest ih =>
      simp only [List.map_cons, List.mem_cons, not_or] at hm
      have hne : ¬ e.hash = h := fun hh => hm.1 hh.symm
      simp [cmdqInsert, hne, ih hm.2]

theorem cmdqInsert_nodup (h : Nat) (c : String) (q : List CEntry)
    (hq : queueHashNodup q) : queueHashNodup (cmdqInsert h c q) := by
  by_cases hm : h ∈ q.map CEntry.hash
  · rwa [cmdqInsert_mem h c q hm]
  · rw [cmdqInsert_not_mem h c q hm]
    unfold queueHashNodup at *
    simp only [List.map_append, List.map_cons, List.map_nil]
    refine List.Nodup.append hq (List.nodup_singleton h) ?_
    intro x hx hx1
    simp only [List.mem_singleton] at hx1
    exact hm (hx1 ▸ hx)

/-- C1: enqueueing a code whose SDBM hash equals the hash of an entry
already present in the receiver's queue leaves the queue unchanged and
returns ok; otherwise the code is appended at the tail; and `cmd_attempt`
preserves the queue invariant that no two entries have equal hash.
(The `length < 64` hypothesis states that the code fits `cmd_attempt`'s
BUF_SIZE buffer, which holds for every entry the daemon ever queues.) -/
theorem c1_enqueue_dedup (q : List CEntry) (pre arg : String) :
    ((pre ++ arg).length < 64 →
      (hashSdbmStr (pre ++ arg) ∈ q.map CEntry.hash →
        cmdAttempt q pre arg = (0, q)) ∧
      (hashSdbmStr (pre ++ arg) ∉ q.map CEntry.hash →
        cmdAttempt q pre arg =
          (0, q ++ [⟨hashSdbmStr (pre ++ arg), pre ++ arg⟩]))) ∧
    (queueHashNodup q → queueHashNodup (cmdAttempt q pre arg).2) := by
  constructor
  · intro hlen
    constructor
    · intro hm
      unfold cmdAttempt
      rw [if_neg (by omega)]
      rw [cmdqInsert_mem _ _ _ hm]
    · intro hm
      unfold cmdAttempt
      rw [if_neg (by omega)]
      rw [cmdqInsert_not_mem _ _ _ hm]
  · intro hq
    unfold cmdAttempt
    split_ifs with h
    · exact hq
    · exact cmdqInsert_nodup _ _ _ hq

theorem c1_enqueue_dedup_witness :
    cmdAttempt [⟨hashSdbmStr "PWR01", "PWR01"⟩] "PWR" "01" =
      (0, [⟨hashSdbmStr "PWR01", "PWR01"⟩]) :=
  ((c1_enqueue_dedup [⟨hashSdbmStr "PWR01", "PWR01"⟩] "PWR" "01").1
    (by decide)).1 (by simp)

/-- C2: `next_rcvr_command` with a zero power bitmask only ever returns
codes containing `PWR`/`ZPW`/`PW3` (it discards every non-power entry it
pops past, and returns `none` when the queue runs out of power commands);
with any power bit set it returns the head unconditionally. -/
theorem c2_pop_power_gate (q : List CEntry) :
    (nextRcvrCommand 0 q = none ↔
      ∀ e ∈ q, isPowerCommand e.cmd.data = false) ∧
    (∀ e rest, nextRcvrCommand 0 q = some (e, rest) →
      isPowerCommand e.cmd.data = true ∧
      ∃ dropped, q = dropped ++ e :: rest ∧
        ∀ d ∈ dropped, isPowerCommand d.cmd.data = false) ∧
    (∀ power, power ≠ 0 → ∀ e rest, q = e :: rest →
      nextRcvrCommand power q = some (e, rest)) := by
  induction q with
  | nil =>
      refine ⟨by simp [nextRcvrCommand], by simp [nextRcvrCommand], ?_⟩
      intro power _ e rest h
      exact absurd h (by simp)
  | cons a t ih =>
      refine ⟨?_, ?_, ?_⟩
      · by_cases hp : isPowerCommand a.cmd.data = true
        · simp [nextRcvrCommand, hp]
        · have hstep : nextRcvrCommand 0 (a :: t) = nextRcvrCommand 0 t := by
            simp [nextRcvrCommand, hp]
          rw [hstep, ih.1]
          constructor
          · intro h e he
            rcases List.mem_cons.mp he with rfl | he
            · simpa using hp
            · exact h e he
          · intro h e he
            exact h e (List.mem_cons_of_mem a he)
      · intro e rest h
        by_cases hp : isPowerCommand a.cmd.data = true
        · have hae : a = e ∧ t = rest := by simpa [nextRcvrCommand, hp] using h
          rcases hae with ⟨rfl, rfl⟩
          exact ⟨hp, [], rfl, by simp⟩
        · have h' : nextRcvrCommand 0 t = some (e, rest) := by
            simpa [nextRcvrCommand, hp] using h
          obtain ⟨hpow, dropped, hq, hd⟩ := ih.2.1 e rest h'
          refine ⟨hpow, a :: dropped, by rw [hq]; rfl, ?_⟩
          intro d hdm
          rcases List.mem_cons.mp hdm with rfl | hdm
          · simpa using hp
          · exact hd d hdm
      · intro power hpow e rest h
        cases h
        simp [nextRcvrCommand, hpow]

theorem c2_pop_power_gate_witness :
    nextRcvrCommand 3 [⟨hashSdbmStr "AMT01", "AMT01"⟩, ⟨hashSdbmStr "MVL28", "MVL28"⟩] =
      some (⟨hashSdbmStr "AMT01", "AMT01"⟩, [⟨hashSdbmStr "MVL28", "MVL28"⟩]) :=
  (c2_pop_power_gate [⟨hashSdbmStr "AMT01", "AMT01"⟩, ⟨hashSdbmStr "MVL28", "MVL28"⟩]).2.2
    3 (by decide) _ _ rfl

/-- C3 (amended): `can_send_command` answers "can send" exactly when
`now - last` exceeds 80 ms *strictly* (at exactly 80 ms it still says
no, with a zero remaining wait); in the "no" case the returned wait is
`80 ms - (now - last)` with the microsecond component normalized into
`[0, 10^6)`.  The hypotheses state that both timestamps carry a
normalized microsecond field, as `gettimeofday` guarantees. -/
theorem c3_can_send_pacing (last now : Timeval)
    (h1 : 0 ≤ last.usec) (h2 : last.usec < 1000000)
    (h3 : 0 ≤ now.usec) (h4 : now.usec < 1000000) :
    (canSendCommand last now = none ↔ now.toUsec - last.toUsec > 80000) ∧
    (∀ w, canSendCommand last now = some w →
      w.toUsec = 80000 - (now.toUsec - last.toUsec) ∧
      0 ≤ w.usec ∧ w.usec < 1000000) := by
  constructor
  · simp only [canSendCommand, Timeval.toUsec]
    split_ifs with hu hc hn hc hn <;>
      simp only [reduceCtorEq, false_iff, not_lt, true_iff] <;> omega
  · intro w hw
    simp only [canSendCommand] at hw
    split_ifs at hw with hu hc hn hc hn <;>
      first
      | exact Option.noConfusion hw
      | (obtain rfl : w = _ := (Option.some_inj.mp hw).symm
         simp only [Timeval.toUsec]
         exact ⟨by omega, by omega, by omega⟩)

theorem c3_can_send_pacing_witness :
    canSendCommand ⟨0, 0⟩ ⟨0, 100000⟩ = none :=
  ((c3_can_send_pacing ⟨0, 0⟩ ⟨0, 100000⟩ (by norm_num) (by norm_num)
    (by norm_num) (by norm_num)).1).mpr (by norm_num [Timeval.toUsec])

/-- C3 counterexample: at a gap of exactly 80 ms the claim says
`can_send` answers yes, but the code's strict comparison answers no
(with a zero remaining wait). -/
theorem c3_can_send_cx :
    Timeval.toUsec ⟨0, 80000⟩ - Timeval.toUsec ⟨0, 0⟩ ≥ 80000 ∧
    canSendCommand ⟨0, 0⟩ ⟨0, 80000⟩ = some ⟨0, 0⟩ := by
  constructor
  · norm_num [Timeval.toUsec]
  · rfl

/-- C9 (amended): `cmd_attempt` returns invalid, enqueueing nothing,
exactly when the translated code (prefix plus encoded argument) is 64
bytes (BUF_SIZE) or longer, i.e. longer than 63 bytes — not 60: the
check does not account for the 4-byte `!1`/CR-LF envelope. -/
theorem c9_overlong_code_rejected (q : List CEntry) (pre arg : String) :
    ((cmdAttempt q pre arg).1 = -1 ↔ 64 ≤ (pre ++ arg).length) ∧
    (64 ≤ (pre ++ arg).length → cmdAttempt q pre arg = (-1, q)) := by
  unfold cmdAttempt
  split_ifs with h
  · exact ⟨⟨fun _ => h, fun _ => rfl⟩, fun _ => rfl⟩
  · refine ⟨⟨?_, fun hlen => absurd hlen h⟩, fun hlen => absurd hlen h⟩
    intro h0
    simp at h0

theorem c9_overlong_code_rejected_witness :
    cmdAttempt [] "" (String.mk (List.replicate 64 'a')) = (-1, []) :=
  (c9_overlong_code_rejected [] "" (String.mk (List.replicate 64 'a'))).2
    (by decide)

/-- C9 counterexample: a 61-byte code — longer than the claimed
60-byte (BUF_SIZE minus envelope) limit — is accepted by the
translator (`raw` handler) and enqueued, contradicting the claim. -/
theorem c9_overlong_code_cx :
    60 < (String.mk (List.replicate 61 'a')).length ∧
    handleRaw [] (some (String.mk (List.replicate 61 'a'))) =
      (0, [⟨hashSdbmStr (String.mk (List.replicate 61 'a')),
           String.mk (List.replicate 61 'a')⟩]) := by
  constructor
  · decide
  · rfl

/-- C `isspace` (POSIX locale): space, tab, newline, vertical tab,
form feed, carriage return. -/
def isSpaceC (c : Char) : Bool :=
  c == ' ' || c == '\t' || c == '\n' || c.toNat == 11 || c.toNat == 12 ||
    c == '\r'

/-- Whether the head of a character list is a decimal digit. -/
def headIsDigit : List Char → Bool
  | [] => false
  | c :: _ => c.isDigit

/-- The digit-consuming loop of `strtol` base 10. -/
def grabDigits10 (acc : Int) : List Char → Int × List Char
  | [] => (acc, [])
  | c :: t =>
      if c.isDigit then grabDigits10 (acc * 10 + ((c.toNat : Int) - 48)) t
      else (acc, c :: t)

/-- `strtol(nptr, &endptr, 10)`: skip leading whitespace, take an
optional sign, consume decimal digits.  Returns the value and the
`endptr` suffix; when no digits are consumed the value is 0 and
`endptr` is the original input.  Overflow clamping to `LONG_MAX` is not
modelled (every theorem below stays far inside the `long` range). -/
def strtol10 (l : List Char) : Int × List Char :=
  match l.dropWhile isSpaceC with
  | [] => (0, l)
  | c :: t =>
      if c = '-' then
        if headIsDigit t then
          let p := grabDigits10 0 t
          (-p.1, p.2)
        else (0, l)
      else if c = '+' then
        if headIsDigit t then grabDigits10 0 t else (0, l)
      else if c.isDigit then grabDigits10 0 (c :: t)
      else (0, l)

/-- The value of a decimal digit string. -/
def decVal (ds : List Char) : Int :=
  ds.foldl (fun a c => a * 10 + ((c.toNat : Int) - 48)) 0

/-- `sprintf("%05ld", n)`: decimal, zero-padded to (at least) width 5,
the sign counting toward the width. -/
def pad5 (n : Int) : String :=
  let s := toString n
  if 5 ≤ s.length then s
  else if n < 0 then
    "-" ++ String.mk (List.replicate (5 - s.length) '0') ++ toString (-n)
  else String.mk (List.replicate (5 - s.length) '0') ++ s

/-- `snprintf(buf, BUF_SIZE, ...)` truncation: at most 63 characters
are stored (plus the terminating NUL).  The identity on every message
the daemon actually produces. -/
def sn64 (s : String) : String := String.mk (s.data.take 63)

/-- `handle_tune` from command.c: the standard status/up/down verbs,
then the FM branch (argument contains a dot: parse `F`, skip one
character, parse `D`, range-check, emit `%05ld` of `F*100 + D*10`), or
else the AM branch (`530 <= F <= 1710`, emit `%05ld` of `F`).  The
`errno` overflow check is modelled as always passing (no `long`
overflow for the inputs considered). -/
def handleTune (q : List CEntry) (pre : String) (arg : Option String) :
    Int × List CEntry :=
  match arg with
  | none => cmdAttempt q pre "QSTN"
  | some a =>
    if a = "status" then cmdAttempt q pre "QSTN"
    else if a = "up" then cmdAttempt q pre "UP"
    else if a = "down" then cmdAttempt q pre "DOWN"
    else if a.data.contains '.' then
      let p1 := strtol10 a.data
      let p2 := strtol10 (p1.2.drop 1)
      if p2.1 < 0 ∨ 9 < p2.1 ∨ (p1.1 ≤ 87 ∧ p2.1 < 5) ∨ 108 ≤ p1.1 then
        (-1, q)
      else cmdAttempt q pre (pad5 (p1.1 * 100 + p2.1 * 10))
    else
      let p := strtol10 a.data
      if p.1 < 530 ∨ 1710 < p.1 then (-1, q)
      else cmdAttempt q pre (pad5 p.1)

/-- C5: the FM range check of `handle_tune` is buggy.  86.9 MHz lies
below the claimed (and source-commented) allowed range 87.5..107.9,
yet the code accepts it and enqueues `TUN08690`: the guard
`(freq <= 87 && frac_freq < 5)` fails to reject any `F <= 87` whose
fractional digit is 5..9.  The second conjunct records that (F,D) =
(86,9) is outside the claimed range `875 <= 10*F + D <= 1079`. -/
theorem c5_tune_fm_bug :
    handleTune [] "TUN" (some "86.9") =
      (0, [⟨hashSdbmStr "TUN08690", "TUN08690"⟩]) ∧
    ¬ (875 ≤ 10 * 86 + 9 ∧ 10 * 86 + 9 ≤ 1079) := by
  constructor
  · rfl
  · decide

theorem grabDigits10_all (ds : List Char) (acc : Int)
    (hd : ∀ c ∈ ds, c ∈ "0123456789".data) :
    grabDigits10 acc ds =
      (ds.foldl (fun a c => a * 10 + ((c.toNat : Int) - 48)) acc, []) := by
  induction ds generalizing acc with
  | nil => simp [grabDigits10]
  | cons c t ih =>
      have hc : c.isDigit = true := by
        have hm := hd c (by simp)
        fin_cases hm <;> decide
      simp only [grabDigits10, hc, if_true, List.foldl_cons]
      exact ih _ (fun x hx => hd x (by simp [hx]))

theorem strtol10_digits (ds : List Char) (hne : ds ≠ [])
    (hd : ∀ c ∈ ds, c ∈ "0123456789".data) :
    strtol10 ds = (decVal ds, []) := by
  obtain ⟨c, t, rfl⟩ : ∃ c t, ds = c :: t := by
    cases ds with
    | nil => exact absurd rfl hne
    | cons c t => exact ⟨c, t, rfl⟩
  have hc := hd c (by simp)
  have hsp : isSpaceC c = false := by fin_cases hc <;> decide
  have hminus : ¬ c = '-' := by fin_cases hc <;> decide
  have hplus : ¬ c = '+' := by fin_cases hc <;> decide
  have hdig : c.isDigit = true := by fin_cases hc <;> decide
  unfold strtol10
  rw [List.dropWhile_cons, if_neg (by simp [hsp])]
  simp only [hminus, hplus, hdig, if_false, if_true]
  exact grabDigits10_all _ _ hd

theorem decVal_nonneg (ds : List Char)
    (hd : ∀ c ∈ ds, c ∈ "0123456789".data) : 0 ≤ decVal ds := by
  suffices h : ∀ acc : Int, 0 ≤ acc →
      0 ≤ ds.foldl (fun a c => a * 10 + ((c.toNat : Int) - 48)) acc from
    h 0 le_rfl
  induction ds with
  | nil => intro acc hacc; simpa using hacc
  | cons c t ih =>
      intro acc hacc
      have hc := hd c (by simp)
      have h48 : (48 : Int) ≤ c.toNat := by fin_cases hc <;> decide
      simp only [List.foldl_cons]
      exact ih (fun x hx => hd x (by simp [hx])) _ (by omega)

/-- The minutes computation of `write_fakesleep_status` (command.c):
`mins = when > now.tv_sec ? (when - now.tv_sec + 59) / 60 : 0`
(C `/` truncates toward zero, here `Int.tdiv`). -/
def fsMins (whenS nowS : Int) : Int :=
  if whenS > nowS then (whenS - nowS + 59).tdiv 60 else 0

theorem fsMins_set (nowS N : Int) (h : 0 ≤ N) :
    fsMins (nowS + 60 * N) nowS = N := by
  unfold fsMins
  rcases eq_or_lt_of_le h with rfl | hpos
  · norm_num
  · rw [if_pos (by omega)]
    rw [show nowS + 60 * N - nowS + 59 = 60 * N + 59 by ring]
    rw [Int.tdiv_eq_ediv (by omega) (by omega)]
    omega

theorem fsMins_ceil_pos (w nowS : Int) (h : w > nowS) :
    60 * (fsMins w nowS - 1) < w - nowS ∧ w - nowS ≤ 60 * fsMins w nowS := by
  unfold fsMins
  rw [if_pos h, Int.tdiv_eq_ediv (by omega) (by omega)]
  constructor <;> omega

theorem fsMins_off (w nowS : Int) (h : w ≤ nowS) : fsMins w nowS = 0 := by
  unfold fsMins
  exact if_neg (by omega)

/-- `write_fakesleep_status` from command.c: pick the zone's sleep
deadline, compute the remaining whole minutes (`fsMins`, seconds only),
broadcast `OK:zone<z>sleep:<mins>\n`; unknown zones return -1 and
broadcast nothing. -/
def writeFakesleepStatus (r : Receiver) (now : Timeval) (zone : Char) :
    Int × List String :=
  if zone = '2' then
    (0, [sn64 ("OK:zone2sleep:" ++
      toString (fsMins r.zone2Sleep.sec now.sec) ++ "\n")])
  else if zone = '3' then
    (0, [sn64 ("OK:zone3sleep:" ++
      toString (fsMins r.zone3Sleep.sec now.sec) ++ "\n")])
  else (-1, [])

/-- `handle_fakesleep` from command.c: the zone is the first character
of the command's pseudo-prefix (`"2"`/`"3"`); an absent or `"status"`
argument changes nothing, `"off"` clears the zone's sleep deadline, an
integer `N >= 0` (full-string parse) sets it to `now` plus `60*N`
seconds; anything else is invalid.  After any successful branch the
zone's sleep status is broadcast from the mutated receiver.  Nothing is
ever enqueued.  The early `return -1` paths are modelled by the `none`
case of `step`. -/
def handleFakesleep (r : Receiver) (pre : String) (arg : Option String)
    (now : Timeval) : Receiver × List String × Int :=
  let zone := pre.data.getD 0 NUL
  if zone ≠ '2' ∧ zone ≠ '3' then (r, [], -1)
  else
    let step : Option Receiver :=
      match arg with
      | none => some r
      | some a =>
        if a = "status" then some r
        else if a = "off" then
          some (if zone = '2' then { r with zone2Sleep := ⟨0, 0⟩ }
                else { r with zone3Sleep := ⟨0, 0⟩ })
        else
          let p := strtol10 a.data
          if p.2 ≠ [] then none
          else if p.1 < 0 then none
          else some (if zone = '2'
            then { r with zone2Sleep := ⟨now.sec + 60 * p.1, now.usec⟩ }
            else { r with zone3Sleep := ⟨now.sec + 60 * p.1, now.usec⟩ })
    match step with
    | none => (r, [], -1)
    | some r1 => (r1, (writeFakesleepStatus r1 now zone).2, 0)

/-- C8 (amended): `zone2sleep`/`zone3sleep` never enqueue anything; an
integer argument N >= 0 sets the zone's sleep deadline to now + 60*N
seconds and broadcasts `OK:zone<z>sleep:N\n`; `"off"` clears the
deadline and broadcasts 0; an absent or `"status"` argument leaves the
receiver (deadline included) unchanged and broadcasts the remaining
minutes M, where M is computed from whole seconds only:
M = ceil((deadline.sec - now.sec)/60) when deadline.sec > now.sec
(characterized by the last two conjuncts) and 0 otherwise.
(`sn64` is the `snprintf(msg, BUF_SIZE, ...)` truncation, the identity
on every realistic value.) -/
theorem c8_fakesleep (r : Receiver) (now : Timeval) (hnow : 0 ≤ now.sec) :
    (∀ ds : List Char, ds ≠ [] → (∀ c ∈ ds, c ∈ "0123456789".data) →
      handleFakesleep r "2" (some (String.mk ds)) now =
        ({r with zone2Sleep := ⟨now.sec + 60 * decVal ds, now.usec⟩},
         [sn64 ("OK:zone2sleep:" ++ toString (decVal ds) ++ "\n")], 0) ∧
      handleFakesleep r "3" (some (String.mk ds)) now =
        ({r with zone3Sleep := ⟨now.sec + 60 * decVal ds, now.usec⟩},
         [sn64 ("OK:zone3sleep:" ++ toString (decVal ds) ++ "\n")], 0)) ∧
    (handleFakesleep r "2" (some "off") now =
        ({r with zone2Sleep := ⟨0, 0⟩}, ["OK:zone2sleep:0\n"], 0) ∧
     handleFakesleep r "3" (some "off") now =
        ({r with zone3Sleep := ⟨0, 0⟩}, ["OK:zone3sleep:0\n"], 0)) ∧
    (∀ arg, arg = none ∨ arg = some "status" →
      handleFakesleep r "2" arg now =
        (r, [sn64 ("OK:zone2sleep:" ++
          toString (fsMins r.zone2Sleep.sec now.sec) ++ "\n")], 0) ∧
      handleFakesleep r "3" arg now =
        (r, [sn64 ("OK:zone3sleep:" ++
          toString (fsMins r.zone3Sleep.sec now.sec) ++ "\n")], 0)) ∧
    (∀ w nowS : Int, w > nowS →
      60 * (fsMins w nowS - 1) < w - nowS ∧ w - nowS ≤ 60 * fsMins w nowS) ∧
    (∀ w nowS : Int, w ≤ nowS → fsMins w nowS = 0) := by
  refine ⟨?_, ?_, ?_, fsMins_ceil_pos, fsMins_off⟩
  · intro ds hne hd
    have hst : ¬ (String.mk ds = "status") := by
      intro h
      have hds : ds = "status".data := congrArg String.data h
      have hs : 's' ∈ "0123456789".data := hd 's' (by rw [hds]; decide)
      exact absurd hs (by decide)
    have hoff : ¬ (String.mk ds = "off") := by
      intro h
      have hds : ds = "off".data := congrArg String.data h
      have hs : 'o' ∈ "0123456789".data := hd 'o' (by rw [hds]; decide)
      exact absurd hs (by decide)
    have hp := strtol10_digits ds hne hd
    have hnn := decVal_nonneg ds hd
    have hfs := fsMins_set now.sec (decVal ds) hnn
    have hneg : ¬ decVal ds < 0 := by omega
    constructor
    · simp [handleFakesleep, writeFakesleepStatus, hst, hoff, hp, hfs, hneg]
    · simp [handleFakesleep, writeFakesleepStatus, hst, hoff, hp, hfs, hneg]
  · have h2 := fsMins_off 0 now.sec hnow
    constructor
    · simp [handleFakesleep, writeFakesleepStatus, h2]
      rfl
    · simp [handleFakesleep, writeFakesleepStatus, h2]
      rfl
  · rintro arg (rfl | rfl)
    · constructor
      · simp [handleFakesleep, writeFakesleepStatus]
      · simp [handleFakesleep, writeFakesleepStatus]
    · constructor
      · simp [handleFakesleep, writeFakesleepStatus]
      · simp [handleFakesleep, writeFakesleepStatus]

theorem c8_fakesleep_witness :
    handleFakesleep ⟨0, 0, 0, ⟨0, 0⟩, ⟨0, 0⟩, ⟨0, 0⟩, ⟨0, 0⟩, []⟩ "2"
        (some (String.mk ['5'])) ⟨0, 0⟩ =
      (⟨0, 0, 0, ⟨0, 0⟩, ⟨300, 0⟩, ⟨0, 0⟩, ⟨0, 0⟩, []⟩,
       ["OK:zone2sleep:5\n"], 0) := by
  have h := ((c8_fakesleep ⟨0, 0, 0, ⟨0, 0⟩, ⟨0, 0⟩, ⟨0, 0⟩, ⟨0, 0⟩, []⟩
    ⟨0, 0⟩ (by norm_num)).1 ['5'] (by decide) (by decide)).1
  exact h

/-- C8 counterexample: a `zone2sleep` command with an absent argument
leaves a pending sleep deadline in place (the code treats absence as a
status query), whereas the claim says absence clears the deadline. -/
theorem c8_fakesleep_cx :
    (handleFakesleep ⟨0, 0, 0, ⟨0, 0⟩, ⟨1000, 0⟩, ⟨0, 0⟩, ⟨0, 0⟩, []⟩ "2"
        none ⟨10, 0⟩).1.zone2Sleep = ⟨1000, 0⟩ ∧
    (⟨1000, 0⟩ : Timeval) ≠ ⟨0, 0⟩ := by
  constructor
  · rfl
  · decide

/-- The value of a hexadecimal digit character, if it is one. -/
def hexDigitVal : Char → Option Nat := fun c =>
  if c.isDigit then some (c.toNat - 48)
  else if 'a' ≤ c ∧ c ≤ 'f' then some (c.toNat - 87)
  else if 'A' ≤ c ∧ c ≤ 'F' then some (c.toNat - 55)
  else none

/-- Whether a character is a hexadecimal digit. -/
def isHexC (c : Char) : Bool := (hexDigitVal c).isSome

/-- Whether the head of a character list is a hexadecimal digit. -/
def headIsHex : List Char → Bool
  | [] => false
  | c :: _ => isHexC c

/-- The digit-consuming loop of `strtol` base 16. -/
def grabDigits16 (acc : Int) : List Char → Int × List Char
  | [] => (acc, [])
  | c :: t =>
      match hexDigitVal c with
      | some v => grabDigits16 (acc * 16 + (v : Int)) t
      | none => (acc, c :: t)

/-- The post-sign part of `strtol` base 16: an optional `0x`/`0X`
prefix (consumed only when followed by a hex digit), then hex digits. -/
def hexBody (neg : Bool) (l : List Char) : Int × List Char :=
  match l with
  | '0' :: x :: t =>
      if (x = 'x' ∨ x = 'X') ∧ headIsHex t then
        let p := grabDigits16 0 t
        (if neg then -p.1 else p.1, p.2)
      else
        let p := grabDigits16 0 ('0' :: x :: t)
        (if neg then -p.1 else p.1, p.2)
  | l' =>
      let p := grabDigits16 0 l'
      (if neg then -p.1 else p.1, p.2)

/-- `strtol(nptr, &endptr, 16)`: skip whitespace, optional sign,
optional `0x`, hex digits; value 0 and `endptr = nptr` when nothing is
consumed.  `long` overflow is not modelled (inputs considered stay far
inside range). -/
def strtol16 (l : List Char) : Int × List Char :=
  match l.dropWhile isSpaceC with
  | [] => (0, l)
  | c :: t =>
      if c = '-' then
        if headIsHex t then hexBody true t else (0, l)
      else if c = '+' then
        if headIsHex t then hexBody false t else (0, l)
      else if isHexC c then hexBody false (c :: t)
      else (0, l)

/-- The value of a hex digit string. -/
def hexVal (ds : List Char) : Int :=
  ds.foldl (fun a c => a * 16 + (((hexDigitVal c).getD 0 : Nat) : Int)) 0

/-- `sprintf("%+ld", n)`: decimal with an explicit sign. -/
def plusDec (n : Int) : String := if 0 ≤ n then "+" ++ toString n else toString n

/-- An entry of the `statuses` table in receiver.c (`struct status`;
the `hash` field is computed from `key` by `init_statuses`, modelled by
hashing during lookup). -/
structure StEntry where
  key : String
  value : String
deriving Repr, DecidableEq

/-- An entry of the `power_statuses` table in receiver.c
(`struct power_status`). -/
structure PwrEntry where
  key : String
  value : String
  zone : Nat
  power : Nat
deriving Repr, DecidableEq

/-- The `statuses` table from receiver.c (the live revision), without
its `{0, NULL, NULL}` sentinel. -/
def statuses : List StEntry := [
  StEntry.mk "AMT00" "OK:mute:off\n",
  StEntry.mk "AMT01" "OK:mute:on\n",
  StEntry.mk "SLI00" "OK:input:DVR\n",
  StEntry.mk "SLI01" "OK:input:Cable\n",
  StEntry.mk "SLI02" "OK:input:TV\n",
  StEntry.mk "SLI03" "OK:input:AUX\n",
  StEntry.mk "SLI04" "OK:input:AUX2\n",
  StEntry.mk "SLI05" "OK:input:PC\n",
  StEntry.mk "SLI10" "OK:input:DVD\n",
  StEntry.mk "SLI20" "OK:input:Tape\n",
  StEntry.mk "SLI22" "OK:input:Phono\n",
  StEntry.mk "SLI23" "OK:input:CD\n",
  StEntry.mk "SLI24" "OK:input:FM Tuner\n",
  StEntry.mk "SLI25" "OK:input:AM Tuner\n",
  StEntry.mk "SLI26" "OK:input:Tuner\n",
  StEntry.mk "SLI27" "OK:input:Music Server\n",
  StEntry.mk "SLI28" "OK:input:Internet Radio\n",
  StEntry.mk "SLI29" "OK:input:USB\n",
  StEntry.mk "SLI2A" "OK:input:USB Rear\n",
  StEntry.mk "SLI40" "OK:input:Port\n",
  StEntry.mk "SLI30" "OK:input:Multichannel\n",
  StEntry.mk "SLI31" "OK:input:XM Radio\n",
  StEntry.mk "SLI32" "OK:input:Sirius Radio\n",
  StEntry.mk "SLIFF" "OK:input:Audyssey Speaker Setup\n",
  StEntry.mk "LMD00" "OK:mode:Stereo\n",
  StEntry.mk "LMD01" "OK:mode:Direct\n",
  StEntry.mk "LMD07" "OK:mode:Mono Movie\n",
  StEntry.mk "LMD08" "OK:mode:Orchestra\n",
  StEntry.mk "LMD09" "OK:mode:Unplugged\n",
  StEntry.mk "LMD0A" "OK:mode:Studio-Mix\n",
  StEntry.mk "LMD0B" "OK:mode:TV Logic\n",
  StEntry.mk "LMD0C" "OK:mode:All Channel Stereo\n",
  StEntry.mk "LMD0D" "OK:mode:Theater-Dimensional\n",
  StEntry.mk "LMD0F" "OK:mode:Mono\n",
  StEntry.mk "LMD10" "OK:mode:Test Tone\n",
  StEntry.mk "LMD11" "OK:mode:Pure Audio\n",
  StEntry.mk "LMD13" "OK:mode:Full Mono\n",
  StEntry.mk "LMD15" "OK:mode:DTS Surround Sensation\n",
  StEntry.mk "LMD16" "OK:mode:Audyssey DSX\n",
  StEntry.mk "LMD40" "OK:mode:Straight Decode\n",
  StEntry.mk "LMD41" "OK:mode:Dolby EX/DTS ES\n",
  StEntry.mk "LMD42" "OK:mode:THX Cinema\n",
  StEntry.mk "LMD43" "OK:mode:THX Surround EX\n",
  StEntry.mk "LMD44" "OK:mode:THX Music\n",
  StEntry.mk "LMD45" "OK:mode:THX Games\n",
  StEntry.mk "LMD80" "OK:mode:Pro Logic IIx Movie\n",
  StEntry.mk "LMD81" "OK:mode:Pro Logic IIx Music\n",
  StEntry.mk "LMD82" "OK:mode:Neo:6 Cinema\n",
  StEntry.mk "LMD83" "OK:mode:Neo:6 Music\n",
  StEntry.mk "LMD84" "OK:mode:PLIIx THX Cinema\n",
  StEntry.mk "LMD85" "OK:mode:Neo:6 THX Cinema\n",
  StEntry.mk "LMD86" "OK:mode:Pro Logic IIx Game\n",
  StEntry.mk "LMD88" "OK:mode:Neural THX\n",
  StEntry.mk "LMDN/A" "ERROR:mode:N/A\n",
  StEntry.mk "MEMLOCK" "OK:memory:locked\n",
  StEntry.mk "MEMUNLK" "OK:memory:unlocked\n",
  StEntry.mk "MEMN/A" "ERROR:memory:N/A\n",
  StEntry.mk "ZMT00" "OK:zone2mute:off\n",
  StEntry.mk "ZMT01" "OK:zone2mute:on\n",
  StEntry.mk "ZVLN/A" "ERROR:zone2volume:N/A\n",
  StEntry.mk "SLZ00" "OK:zone2input:DVR\n",
  StEntry.mk "SLZ01" "OK:zone2input:Cable\n",
  StEntry.mk "SLZ02" "OK:zone2input:TV\n",
  StEntry.mk "SLZ03" "OK:zone2input:AUX\n",
  StEntry.mk "SLZ04" "OK:zone2input:AUX2\n",
  StEntry.mk "SLZ10" "OK:zone2input:DVD\n",
  StEntry.mk "SLZ20" "OK:zone2input:Tape\n",
  StEntry.mk "SLZ22" "OK:zone2input:Phono\n",
  StEntry.mk "SLZ23" "OK:zone2input:CD\n",
  StEntry.mk "SLZ24" "OK:zone2input:FM Tuner\n",
  StEntry.mk "SLZ25" "OK:zone2input:AM Tuner\n",
  StEntry.mk "SLZ26" "OK:zone2input:Tuner\n",
  StEntry.mk "SLZ30" "OK:zone2input:Multichannel\n",
  StEntry.mk "SLZ31" "OK:zone2input:XM Radio\n",
  StEntry.mk "SLZ32" "OK:zone2input:Sirius Radio\n",
  StEntry.mk "SLZ7F" "OK:zone2input:Off\n",
  StEntry.mk "SLZ80" "OK:zone2input:Source\n",
  StEntry.mk "MT300" "OK:zone3mute:off\n",
  StEntry.mk "MT301" "OK:zone3mute:on\n",
  StEntry.mk "VL3N/A" "ERROR:zone3volume:N/A\n",
  StEntry.mk "SL300" "OK:zone3input:DVR\n",
  StEntry.mk "SL301" "OK:zone3input:Cable\n",
  StEntry.mk "SL302" "OK:zone3input:TV\n",
  StEntry.mk "SL303" "OK:zone3input:AUX\n",
  StEntry.mk "SL304" "OK:zone3input:AUX2\n",
  StEntry.mk "SL310" "OK:zone3input:DVD\n",
  StEntry.mk "SL320" "OK:zone3input:Tape\n",
  StEntry.mk "SL322" "OK:zone3input:Phono\n",
  StEntry.mk "SL323" "OK:zone3input:CD\n",
  StEntry.mk "SL324" "OK:zone3input:FM Tuner\n",
  StEntry.mk "SL325" "OK:zone3input:AM Tuner\n",
  StEntry.mk "SL326" "OK:zone3input:Tuner\n",
  StEntry.mk "SL330" "OK:zone3input:Multichannel\n",
  StEntry.mk "SL331" "OK:zone3input:XM Radio\n",
  StEntry.mk "SL332" "OK:zone3input:Sirius Radio\n",
  StEntry.mk "SL37F" "OK:zone3input:Off\n",
  StEntry.mk "SL380" "OK:zone3input:Source\n",
  StEntry.mk "DIF00" "OK:display:Volume\n",
  StEntry.mk "DIF01" "OK:display:Mode\n",
  StEntry.mk "DIF02" "OK:display:Digital Format\n",
  StEntry.mk "DIFN/A" "ERROR:display:N/A\n",
  StEntry.mk "DIM00" "OK:dimmer:Bright\n",
  StEntry.mk "DIM01" "OK:dimmer:Dim\n",
  StEntry.mk "DIM02" "OK:dimmer:Dark\n",
  StEntry.mk "DIM03" "OK:dimmer:Shut-off\n",
  StEntry.mk "DIM08" "OK:dimmer:Bright (LED off)\n",
  StEntry.mk "DIMN/A" "ERROR:dimmer:N/A\n",
  StEntry.mk "LTN00" "OK:latenight:off\n",
  StEntry.mk "LTN01" "OK:latenight:low\n",
  StEntry.mk "LTN02" "OK:latenight:high\n",
  StEntry.mk "RAS00" "OK:re-eq:off\n",
  StEntry.mk "RAS01" "OK:re-eq:on\n",
  StEntry.mk "ADY00" "OK:audyssey:off\n",
  StEntry.mk "ADY01" "OK:audyssey:on\n",
  StEntry.mk "ADQ00" "OK:dynamiceq:off\n",
  StEntry.mk "ADQ01" "OK:dynamiceq:on\n",
  StEntry.mk "HDO00" "OK:hdmiout:off\n",
  StEntry.mk "HDO01" "OK:hdmiout:on\n",
  StEntry.mk "RES00" "OK:resolution:Through\n",
  StEntry.mk "RES01" "OK:resolution:Auto\n",
  StEntry.mk "RES02" "OK:resolution:480p\n",
  StEntry.mk "RES03" "OK:resolution:720p\n",
  StEntry.mk "RES04" "OK:resolution:1080i\n",
  StEntry.mk "RES05" "OK:resolution:1080p\n",
  StEntry.mk "SLA00" "OK:audioselector:Auto\n",
  StEntry.mk "SLA01" "OK:audioselector:Multichannel\n",
  StEntry.mk "SLA02" "OK:audioselector:Analog\n",
  StEntry.mk "SLA03" "OK:audioselector:iLink\n",
  StEntry.mk "SLA04" "OK:audioselector:HDMI\n",
  StEntry.mk "TGA00" "OK:triggera:off\n",
  StEntry.mk "TGA01" "OK:triggera:on\n",
  StEntry.mk "TGAN/A" "ERROR:triggera:N/A\n",
  StEntry.mk "TGB00" "OK:triggerb:off\n",
  StEntry.mk "TGB01" "OK:triggerb:on\n",
  StEntry.mk "TGBN/A" "ERROR:triggerb:N/A\n",
  StEntry.mk "TGC00" "OK:triggerc:off\n",
  StEntry.mk "TGC01" "OK:triggerc:on\n",
  StEntry.mk "TGCN/A" "ERROR:triggerc:N/A\n"]

/-- The `power_statuses` table from receiver.c, without its sentinel:
key, broadcast line, zone (1-3) and new power value (0/1). -/
def powerStatuses : List PwrEntry := [
  PwrEntry.mk "PWR00" "OK:power:off\n" 1 0,
  PwrEntry.mk "PWR01" "OK:power:on\n" 1 1,
  PwrEntry.mk "ZPW00" "OK:zone2power:off\n" 2 0,
  PwrEntry.mk "ZPW01" "OK:zone2power:on\n" 2 1,
  PwrEntry.mk "PW300" "OK:zone3power:off\n" 3 0,
  PwrEntry.mk "PW301" "OK:zone3power:on\n" 3 1]

/-- The canonical receiver-error string (`rcvr_err` in onkyo.c). -/
def rcvrErr : String := "ERROR:Receiver Error\n"

/-- The END_RECV end-of-frame byte.  onkyo.h defines `END_RECV` as a
one-byte control-character string (its non-printable byte does not
survive the source archive; `newtio.c_cc[VEOL] = END_RECV[strlen(END_RECV)-1]`
in onkyo.c and the sibling revision's `#define END_RECV_CHAR 0x1A` fix it
as 0x1A, the receiver's end-of-message byte). -/
def endRecvChar : Char := Char.ofNat 26

/-- `eptr = strstr(sptr, END_RECV); if(eptr) *eptr = '\0'`: truncate the
payload at the end-of-frame byte when present. -/
def truncAtEnd (l : List Char) : List Char :=
  l.takeWhile (fun c => c ≠ endRecvChar)

/-- The status-table walk of `parse_status`: first entry whose
(pre-computed) SDBM hash equals the payload hash. -/
def lookupStatus (h : Nat) : Option String :=
  (statuses.find? (fun st => hashSdbmStr st.key == h)).map StEntry.value

/-- The power-status-table walk of `parse_status`. -/
def lookupPower (h : Nat) : Option PwrEntry :=
  powerStatuses.find? (fun st => hashSdbmStr st.key == h)

/-- `update_power_status` from receiver.c: set or clear one zone's bit
of the power bitmask (`&= ~bit` on a 32-bit `unsigned int` is `&&&`
with the bit's 32-bit complement), additionally clearing the zone's
sleep deadline when zone 2 or 3 powers off. -/
def updatePowerStatus (r : Receiver) (zone value : Nat) : Receiver :=
  if zone = 1 ∧ value = 0 then
    { r with power := r.power &&& ((2 ^ 32 - 1) ^^^ 1) }
  else if zone = 1 ∧ value = 1 then { r with power := r.power ||| 1 }
  else if zone = 2 ∧ value = 0 then
    { r with power := r.power &&& ((2 ^ 32 - 1) ^^^ 2), zone2Sleep := ⟨0, 0⟩ }
  else if zone = 2 ∧ value = 1 then { r with power := r.power ||| 2 }
  else if zone = 3 ∧ value = 0 then
    { r with power := r.power &&& ((2 ^ 32 - 1) ^^^ 4), zone3Sleep := ⟨0, 0⟩ }
  else if zone = 3 ∧ value = 1 then { r with power := r.power ||| 4 }
  else r

/-- `parse_status` from receiver.c: find the `!1` start-of-frame marker
(broadcasting `rcvr_err` and returning -1 when absent), take the
C-string payload after it, truncate at the end-of-frame byte, then:
status-table hit, power-table hit (mutating the power bitmask), the
numeric special cases (volume emits the dbvolume line first and lets
the shared final write emit the volume line), or the `OK:todo:` escape.
Returns the updated receiver, the broadcast lines in order, and the C
return value. -/
def parseStatus (r : Receiver) (input : List Char) :
    Receiver × List String × Int :=
  match afterSub "!1".data input with
  | none => (r, [rcvrErr], -1)
  | some rest =>
    let sptr := truncAtEnd (cString rest)
    let h := hashSdbm sptr
    match lookupStatus h with
    | some v => (r, [v], 0)
    | none =>
      match lookupPower h with
      | some pe => (updatePowerStatus r pe.zone pe.power, [pe.value], 0)
      | none =>
        if leadsWith "MVL".data sptr || leadsWith "ZVL".data sptr ||
            leadsWith "VL3".data sptr then
          let level := (strtol16 (sptr.drop 3)).1
          let bufs : String × String :=
            if sptr.getD 0 NUL = 'M' then
              ("OK:volume:" ++ toString level ++ "\n",
               "OK:dbvolume:" ++ toString (level - 82) ++ "\n")
            else if sptr.getD 0 NUL = 'Z' then
              ("OK:zone2volume:" ++ toString level ++ "\n",
               "OK:zone2dbvolume:" ++ toString (level - 82) ++ "\n")
            else if sptr.getD 0 NUL = 'V' then
              ("OK:zone3volume:" ++ toString level ++ "\n",
               "OK:zone3dbvolume:" ++ toString (level - 82) ++ "\n")
            else ("", "")
          (r, [sn64 bufs.2, sn64 bufs.1], 0)
        else if leadsWith "TU".data sptr then
          let freq := (strtol10 (sptr.drop 3)).1
          let tunemsg := if sptr.getD 2 NUL = 'Z' then "OK:zone2tune:"
            else if sptr.getD 2 NUL = '3' then "OK:zone3tune:"
            else "OK:tune:"
          if 8000 < freq then
            (r, [sn64 (tunemsg ++ toString (freq.tdiv 100) ++ "." ++
              toString ((freq.tdiv 10).tmod 10) ++ " FM\n")], 0)
          else (r, [sn64 (tunemsg ++ toString freq ++ " AM\n")], 0)
        else if leadsWith "PRS".data sptr || leadsWith "PRZ".data sptr ||
            leadsWith "PR3".data sptr then
          let value := (strtol16 (sptr.drop 3)).1
          let prsmsg := if sptr.getD 2 NUL = 'Z' then "OK:zone2preset:"
            else if sptr.getD 2 NUL = '3' then "OK:zone3preset:"
            else "OK:preset:"
          (r, [sn64 (prsmsg ++ toString value ++ "\n")], 0)
        else if leadsWith "SLP".data sptr then
          (r, [sn64 ("OK:sleep:" ++ toString (strtol16 (sptr.drop 3)).1 ++
            "\n")], 0)
        else if leadsWith "SWL".data sptr then
          (r, [sn64 ("OK:swlevel:" ++ plusDec (strtol16 (sptr.drop 3)).1 ++
            "\n")], 0)
        else if leadsWith "AVS".data sptr then
          (r, [sn64 ("OK:avsync:" ++
            toString ((strtol10 (sptr.drop 3)).1.tdiv 10) ++ "\n")], 0)
        else (r, [sn64 ("OK:todo:" ++ String.mk sptr ++ "\n")], 0)

theorem hasSub_eq_isSome (n l : List Char) :
    hasSub n l = (afterSub n l).isSome := by
  induction l with
  | nil =>
      unfold hasSub afterSub
      split_ifs with h <;> simp [h]
  | cons c t ih =>
      unfold hasSub afterSub
      by_cases h : leadsWith n (c :: t) = true
      · simp [h]
      · simp only [Bool.not_eq_true] at h
        simp [h, ih]

/-- C6: `parse_status` returns the parse error (-1) exactly when the
input contains no `!1` start-of-frame marker, in which case it
broadcasts exactly `ERROR:Receiver Error\n` and leaves the receiver
state untouched; whenever the marker is present it returns 0. -/
theorem c6_parse_marker (r : Receiver) (input : List Char) :
    (hasSub "!1".data input = false →
      parseStatus r input = (r, [rcvrErr], -1)) ∧
    (hasSub "!1".data input = true → (parseStatus r input).2.2 = 0) ∧
    ((parseStatus r input).2.2 = -1 ↔ hasSub "!1".data input = false) := by
  have hs := hasSub_eq_isSome "!1".data input
  rcases ha : afterSub "!1".data input with _ | rest
  · rw [ha] at hs
    simp only [Option.isSome_none] at hs
    refine ⟨fun _ => ?_, fun hmark => ?_, ?_⟩
    · simp only [parseStatus, ha]
    · rw [hs] at hmark
      exact absurd hmark (by simp)
    · simp [parseStatus, ha, hs]
  · rw [ha] at hs
    simp only [Option.isSome_some] at hs
    have h0 : (parseStatus r input).2.2 = 0 := by
      simp only [parseStatus, ha]
      repeat' (first | rfl | split)
    refine ⟨fun hmark => ?_, fun _ => h0, ?_⟩
    · rw [hs] at hmark
      exact absurd hmark (by simp)
    · rw [h0, hs]
      simp

theorem c6_parse_marker_witness :
    parseStatus ⟨0, 0, 0, ⟨0, 0⟩, ⟨0, 0⟩, ⟨0, 0⟩, ⟨0, 0⟩, []⟩ "garbage".data =
      (⟨0, 0, 0, ⟨0, 0⟩, ⟨0, 0⟩, ⟨0, 0⟩, ⟨0, 0⟩, []⟩, [rcvrErr], -1) :=
  (c6_parse_marker ⟨0, 0, 0, ⟨0, 0⟩, ⟨0, 0⟩, ⟨0, 0⟩, ⟨0, 0⟩, []⟩
    "garbage".data).1 (by decide)

theorem testBit_and_mask (p m j : Nat) (hm : m.testBit j = true) :
    (p &&& m).testBit j = p.testBit j := by
  rw [Nat.testBit_and, hm, Bool.and_true]

theorem testBit_and_mask_false (p m j : Nat) (hm : m.testBit j = false) :
    (p &&& m).testBit j = false := by
  rw [Nat.testBit_and, hm, Bool.and_false]

theorem testBit_or_other (p m j : Nat) (hm : m.testBit j = false) :
    (p ||| m).testBit j = p.testBit j := by
  rw [Nat.testBit_or, hm, Bool.or_false]

theorem testBit_or_self (p m j : Nat) (hm : m.testBit j = true) :
    (p ||| m).testBit j = true := by
  rw [Nat.testBit_or, hm, Bool.or_true]

/-- C10: parsing any of the six power-status replies (`PWR00`/`PWR01`,
`ZPW00`/`ZPW01`, `PW300`/`PW301`) broadcasts the table's line, sets or
clears only that zone's power bit (the other two zone bits are
untouched), clears exactly that zone's sleep deadline on zone-2/3
power-off, and leaves the other sleep deadline, the queue, the
counters and the timestamps unchanged. -/
theorem c10_power_frame (r : Receiver) (pe : PwrEntry)
    (hm : pe ∈ powerStatuses) :
    (parseStatus r ("!1" ++ pe.key).data).2 = ([pe.value], 0) ∧
    (∀ j, j < 3 → j + 1 ≠ pe.zone →
      (parseStatus r ("!1" ++ pe.key).data).1.power.testBit j =
        r.power.testBit j) ∧
    ((parseStatus r ("!1" ++ pe.key).data).1.power.testBit (pe.zone - 1) =
      (pe.power == 1)) ∧
    ((parseStatus r ("!1" ++ pe.key).data).1.zone2Sleep =
      (if pe.zone = 2 ∧ pe.power = 0 then (⟨0, 0⟩ : Timeval)
       else r.zone2Sleep)) ∧
    ((parseStatus r ("!1" ++ pe.key).data).1.zone3Sleep =
      (if pe.zone = 3 ∧ pe.power = 0 then (⟨0, 0⟩ : Timeval)
       else r.zone3Sleep)) ∧
    (parseStatus r ("!1" ++ pe.key).data).1.queue = r.queue ∧
    (parseStatus r ("!1" ++ pe.key).data).1.cmdsSent = r.cmdsSent ∧
    (parseStatus r ("!1" ++ pe.key).data).1.msgsReceived = r.msgsReceived ∧
    (parseStatus r ("!1" ++ pe.key).data).1.lastCmd = r.lastCmd ∧
    (parseStatus r ("!1" ++ pe.key).data).1.nextSleepUpdate =
      r.nextSleepUpdate := by
  fin_cases hm
  · have heq : parseStatus r ("!1" ++ "PWR00").data =
        ({ r with power := r.power &&& ((2 ^ 32 - 1) ^^^ 1) },
         ["OK:power:off\n"], 0) := rfl
    rw [heq]
    refine ⟨rfl, ?_, ?_, rfl, rfl, rfl, rfl, rfl, rfl, rfl⟩
    · intro j hj hne
      interval_cases j
      · exact absurd rfl hne
      · exact testBit_and_mask _ _ _ (by decide)
      · exact testBit_and_mask _ _ _ (by decide)
    · exact testBit_and_mask_false _ _ _ (by decide)
  · have heq : parseStatus r ("!1" ++ "PWR01").data =
        ({ r with power := r.power ||| 1 }, ["OK:power:on\n"], 0) := rfl
    rw [heq]
    refine ⟨rfl, ?_, ?_, rfl, rfl, rfl, rfl, rfl, rfl, rfl⟩
    · intro j hj hne
      interval_cases j
      · exact absurd rfl hne
      · exact testBit_or_other _ _ _ (by decide)
      · exact testBit_or_other _ _ _ (by decide)
    · exact testBit_or_self _ _ _ (by decide)
  · have heq : parseStatus r ("!1" ++ "ZPW00").data =
        ({ r with power := r.power &&& ((2 ^ 32 - 1) ^^^ 2),
                  zone2Sleep := ⟨0, 0⟩ },
         ["OK:zone2power:off\n"], 0) := rfl
    rw [heq]
    refine ⟨rfl, ?_, ?_, rfl, rfl, rfl, rfl, rfl, rfl, rfl⟩
    · intro j hj hne
      interval_cases j
      · exact testBit_and_mask _ _ _ (by decide)
      · exact absurd rfl hne
      · exact testBit_and_mask _ _ _ (by decide)
    · exact testBit_and_mask_false _ _ _ (by decide)
  · have heq : parseStatus r ("!1" ++ "ZPW01").data =
        ({ r with power := r.power ||| 2 }, ["OK:zone2power:on\n"], 0) := rfl
    rw [heq]
    refine ⟨rfl, ?_, ?_, rfl, rfl, rfl, rfl, rfl, rfl, rfl⟩
    · intro j hj hne
      interval_cases j
      · exact testBit_or_other _ _ _ (by decide)
      · exact absurd rfl hne
      · exact testBit_or_other _ _ _ (by decide)
    · exact testBit_or_self _ _ _ (by decide)
  · have heq : parseStatus r ("!1" ++ "PW300").data =
        ({ r with power := r.power &&& ((2 ^ 32 - 1) ^^^ 4),
                  zone3Sleep := ⟨0, 0⟩ },
         ["OK:zone3power:off\n"], 0) := rfl
    rw [heq]
    refine ⟨rfl, ?_, ?_, rfl, rfl, rfl, rfl, rfl, rfl, rfl⟩
    · intro j hj hne
      interval_cases j
      · exact testBit_and_mask _ _ _ (by decide)
      · exact testBit_and_mask _ _ _ (by decide)
      · exact absurd rfl hne
    · exact testBit_and_mask_false _ _ _ (by decide)
  · have heq : parseStatus r ("!1" ++ "PW301").data =
        ({ r with power := r.power ||| 4 }, ["OK:zone3power:on\n"], 0) := rfl
    rw [heq]
    refine ⟨rfl, ?_, ?_, rfl, rfl, rfl, rfl, rfl, rfl, rfl⟩
    · intro j hj hne
      interval_cases j
      · exact testBit_or_other _ _ _ (by decide)
      · exact testBit_or_other _ _ _ (by decide)
      · exact absurd rfl hne
    · exact testBit_or_self _ _ _ (by decide)

theorem c10_power_frame_witness :
    (parseStatus ⟨7, 0, 0, ⟨0, 0⟩, ⟨50, 0⟩, ⟨60, 0⟩, ⟨0, 0⟩, []⟩
      ("!1" ++ (PwrEntry.mk "ZPW00" "OK:zone2power:off\n" 2 0).key).data).2 =
      (["OK:zone2power:off\n"], 0) :=
  (c10_power_frame ⟨7, 0, 0, ⟨0, 0⟩, ⟨50, 0⟩, ⟨60, 0⟩, ⟨0, 0⟩, []⟩
    (PwrEntry.mk "ZPW00" "OK:zone2power:off\n" 2 0) (by decide)).1

theorem leadsWith_append (n r : List Char) : leadsWith n (n ++ r) = true := by
  induction n with
  | nil => rfl
  | cons a t ih => simp [leadsWith, ih]

theorem afterSub_self (n r : List Char) (hne : n ≠ []) :
    afterSub n (n ++ r) = some r := by
  cases n with
  | nil => exact absurd rfl hne
  | cons c t =>
      have hl := leadsWith_append (c :: t) r
      rw [List.cons_append] at hl ⊢
      simp only [afterSub, hl, if_true]
      rw [← List.cons_append, List.drop_left]

theorem cString_all (l : List Char) (h : ∀ c ∈ l, ¬ c = NUL) :
    cString l = l := by
  unfold cString
  rw [List.takeWhile_eq_self_iff]
  intro c hc
  simpa using h c hc

theorem truncAtEnd_all (l : List Char) (h : ∀ c ∈ l, ¬ c = endRecvChar) :
    truncAtEnd l = l := by
  unfold truncAtEnd
  rw [List.takeWhile_eq_self_iff]
  intro c hc
  simpa using h c hc

theorem grabDigits16_all (ds : List Char) (acc : Int)
    (hd : ∀ c ∈ ds, c ∈ "0123456789abcdefABCDEF".data) :
    grabDigits16 acc ds =
      (ds.foldl
        (fun a c => a * 16 + (((hexDigitVal c).getD 0 : Nat) : Int)) acc,
       []) := by
  induction ds generalizing acc with
  | nil => simp [grabDigits16]
  | cons c t ih =>
      have hc := hd c (by simp)
      cases hv : hexDigitVal c with
      | none =>
          exfalso
          revert hv
          fin_cases hc <;> decide
      | some v =>
          simp only [grabDigits16, hv, List.foldl_cons, Option.getD_some]
          exact ih _ (fun x hx => hd x (by simp [hx]))

theorem hexBody_digits (ds : List Char) (hne : ds ≠ [])
    (hd : ∀ c ∈ ds, c ∈ "0123456789abcdefABCDEF".data) :
    hexBody false ds = (hexVal ds, []) := by
  unfold hexBody hexVal
  split
  · rename_i x t
    have hx : x ∈ "0123456789abcdefABCDEF".data := hd x (by simp)
    have hnx : ¬ ((x = 'x' ∨ x = 'X') ∧ headIsHex t = true) := by
      rintro ⟨hx' | hx', _⟩ <;> subst hx' <;> exact absurd hx (by decide)
    rw [if_neg hnx, grabDigits16_all _ _ hd]
    rfl
  · rw [grabDigits16_all _ _ hd]
    rfl

theorem strtol16_digits (ds : List Char) (hne : ds ≠ [])
    (hd : ∀ c ∈ ds, c ∈ "0123456789abcdefABCDEF".data) :
    strtol16 ds = (hexVal ds, []) := by
  obtain ⟨c, t, rfl⟩ : ∃ c t, ds = c :: t := by
    cases ds with
    | nil => exact absurd rfl hne
    | cons c t => exact ⟨c, t, rfl⟩
  have hc := hd c (by simp)
  have hsp : isSpaceC c = false := by fin_cases hc <;> decide
  have hminus : ¬ c = '-' := by fin_cases hc <;> decide
  have hplus : ¬ c = '+' := by fin_cases hc <;> decide
  have hhex : isHexC c = true := by fin_cases hc <;> decide
  unfold strtol16
  rw [List.dropWhile_cons, if_neg (by simp [hsp])]
  simp only [hminus, hplus, hhex, if_false, if_true]
  exact hexBody_digits _ hne hd

/-- C4 counterexample: for the reply `!1MVL28` the code broadcasts the
dbvolume line BEFORE the volume line (receiver.c writes `buf2` inside
the volume branch and leaves `buf` to the shared final write), so the
claimed order — volume first, dbvolume second — is false. -/
theorem c4_volume_order_cx :
    (parseStatus ⟨0, 0, 0, ⟨0, 0⟩, ⟨0, 0⟩, ⟨0, 0⟩, ⟨0, 0⟩, []⟩
      "!1MVL28".data).2.1 = ["OK:dbvolume:-42\n", "OK:volume:40\n"] ∧
    (parseStatus ⟨0, 0, 0, ⟨0, 0⟩, ⟨0, 0⟩, ⟨0, 0⟩, ⟨0, 0⟩, []⟩
      "!1MVL28".data).2.1 ≠ ["OK:volume:40\n", "OK:dbvolume:-42\n"] := by
  constructor
  · rfl
  · decide

/-- C4 (amended): for every reply whose payload is `MVL`, `ZVL` or
`VL3` followed by a hexadecimal integer V (and whose payload hash
matches no static status/power table entry, which is how the code
reaches the numeric branch), parse broadcasts TWO lines to every
client, but in the opposite order to the claim: the dbvolume line
(`V-82`) first, then the volume line (`V`); respectively the
zone2/zone3 variants.  `sn64` is the snprintf BUF_SIZE truncation. -/
theorem c4_volume_order (r : Receiver) (pfx volKey dbKey : String)
    (hm : (pfx, volKey, dbKey) ∈
      ([("MVL", "OK:volume:", "OK:dbvolume:"),
        ("ZVL", "OK:zone2volume:", "OK:zone2dbvolume:"),
        ("VL3", "OK:zone3volume:", "OK:zone3dbvolume:")] :
        List (String × String × String)))
    (ds : List Char) (hne : ds ≠ [])
    (hd : ∀ c ∈ ds, c ∈ "0123456789abcdefABCDEF".data)
    (hs1 : lookupStatus (hashSdbm (pfx.data ++ ds)) = none)
    (hs2 : lookupPower (hashSdbm (pfx.data ++ ds)) = none) :
    parseStatus r ("!1".data ++ (pfx.data ++ ds)) =
      (r, [sn64 (dbKey ++ toString (hexVal ds - 82) ++ "\n"),
           sn64 (volKey ++ toString (hexVal ds) ++ "\n")], 0) := by
  have hnl : ∀ c ∈ ds, ¬ c = NUL := by
    intro c hc
    have h := hd c hc
    fin_cases h <;> decide
  have hre : ∀ c ∈ ds, ¬ c = endRecvChar := by
    intro c hc
    have h := hd c hc
    fin_cases h <;> decide
  have hv := strtol16_digits ds hne hd
  fin_cases hm
  · have hcs : cString ("MVL".data ++ ds) = "MVL".data ++ ds := by
      apply cString_all
      intro c hc
      rcases List.mem_append.mp hc with h | h
      · fin_cases h <;> decide
      · exact hnl c h
    have htr : truncAtEnd ("MVL".data ++ ds) = "MVL".data ++ ds := by
      apply truncAtEnd_all
      intro c hc
      rcases List.mem_append.mp hc with h | h
      · fin_cases h <;> decide
      · exact hre c h
    simp only [parseStatus, afterSub_self "!1".data ("MVL".data ++ ds)
        (by decide), hcs, htr, hs1, hs2, leadsWith_append, Bool.true_or,
      if_true,
      show ("MVL".data ++ ds).drop 3 = ds from rfl,
      show ("MVL".data ++ ds).getD 0 NUL = 'M' from rfl, hv]
    try rfl
  · have hcs : cString ("ZVL".data ++ ds) = "ZVL".data ++ ds := by
      apply cString_all
      intro c hc
      rcases List.mem_append.mp hc with h | h
      · fin_cases h <;> decide
      · exact hnl c h
    have htr : truncAtEnd ("ZVL".data ++ ds) = "ZVL".data ++ ds := by
      apply truncAtEnd_all
      intro c hc
      rcases List.mem_append.mp hc with h | h
      · fin_cases h <;> decide
      · exact hre c h
    simp only [parseStatus, afterSub_self "!1".data ("ZVL".data ++ ds)
        (by decide), hcs, htr, hs1, hs2, leadsWith_append,
      show leadsWith "MVL".data ("ZVL".data ++ ds) = false from rfl,
      Bool.false_or, Bool.true_or, if_true,
      show ("ZVL".data ++ ds).drop 3 = ds from rfl,
      show ("ZVL".data ++ ds).getD 0 NUL = 'Z' from rfl, hv]
    try rfl
  · have hcs : cString ("VL3".data ++ ds) = "VL3".data ++ ds := by
      apply cString_all
      intro c hc
      rcases List.mem_append.mp hc with h | h
      · fin_cases h <;> decide
      · exact hnl c h
    have htr : truncAtEnd ("VL3".data ++ ds) = "VL3".data ++ ds := by
      apply truncAtEnd_all
      intro c hc
      rcases List.mem_append.mp hc with h | h
      · fin_cases h <;> decide
      · exact hre c h
    simp only [parseStatus, afterSub_self "!1".data ("VL3".data ++ ds)
        (by decide), hcs, htr, hs1, hs2, leadsWith_append,
      show leadsWith "MVL".data ("VL3".data ++ ds) = false from rfl,
      show leadsWith "ZVL".data ("VL3".data ++ ds) = false from rfl,
      Bool.false_or, Bool.true_or, if_true,
      show ("VL3".data ++ ds).drop 3 = ds from rfl,
      show ("VL3".data ++ ds).getD 0 NUL = 'V' from rfl, hv]
    try rfl

theorem c4_volume_order_witness :
    parseStatus ⟨0, 0, 0, ⟨0, 0⟩, ⟨0, 0⟩, ⟨0, 0⟩, ⟨0, 0⟩, []⟩
        ("!1".data ++ ("ZVL".data ++ ['2', '8'])) =
      (⟨0, 0, 0, ⟨0, 0⟩, ⟨0, 0⟩, ⟨0, 0⟩, ⟨0, 0⟩, []⟩,
       [sn64 ("OK:zone2dbvolume:" ++ toString (hexVal ['2', '8'] - 82) ++
          "\n"),
        sn64 ("OK:zone2volume:" ++ toString (hexVal ['2', '8']) ++ "\n")],
       0) :=
  c4_volume_order ⟨0, 0, 0, ⟨0, 0⟩, ⟨0, 0⟩, ⟨0, 0⟩, ⟨0, 0⟩, []⟩
    "ZVL" "OK:zone2volume:" "OK:zone2dbvolume:" (by decide)
    ['2', '8'] (by decide) (by decide) (by decide) (by decide)

/-- The read step of `process_input` (onkyo.c): the newly read bytes are
stored at `recv_buf_pos` (everything beyond was zero). -/
def writeChunk (buf : List Char) (pos : Nat) (chunk : List Char) :
    List Char :=
  buf.take pos ++ chunk ++ buf.drop (pos + chunk.length)

/-- The scanning loop of `process_input` (onkyo.c lines 549-585) over
the remaining `count` unscanned bytes, `pos` being `recv_buf_pos`.
On a newline: NUL-terminate, hand the C string `[0, pos)` to
`process_command` (collected in `lines`), move the `count-1` bytes
after the newline down to offset 0, zero-fill the rest, continue at 0.
On reaching the last cell (index 63) without a newline: log, zero the
whole buffer, reset to 0, return -3.  Writes of `ERROR:Invalid
Command` replies are modelled as succeeding, so the `-2` path does not
arise. -/
def scanLoop : List Char → Nat → Nat → List String →
    List Char × Nat × List String × Int
  | buf, pos, 0, lines => (buf, pos, lines, 0)
  | buf, pos, count + 1, lines =>
      if buf.getD pos NUL = '\n' then
        scanLoop
          ((buf.drop (pos + 1)).take count ++ List.replicate (64 - count) NUL)
          0 count (lines ++ [String.mk (cString (buf.take pos))])
      else if 64 - pos ≤ 1 then (List.replicate 64 NUL, 0, lines, -3)
      else scanLoop buf (pos + 1) count lines

/-- `process_input` from onkyo.c: read `chunk` (at most `64 - pos`
bytes) into the buffer at `pos`, return -1 on an empty read (EOF),
otherwise scan the new bytes.  Result: final buffer, final
`recv_buf_pos`, the lines handed to `process_command`, and the C
return value. -/
def processInput (buf : List Char) (pos : Nat) (chunk : List Char) :
    List Char × Nat × List String × Int :=
  if chunk.length = 0 then (writeChunk buf pos chunk, pos, [], -1)
  else scanLoop (writeChunk buf pos chunk) pos chunk.length []

theorem scanLoop_acc (count : Nat) :
    ∀ (buf : List Char) (pos : Nat) (lines : List String),
    (scanLoop buf pos count lines).2.2.1 =
      lines ++ (scanLoop buf pos count []).2.2.1 := by
  induction count with
  | zero => intro buf pos lines; simp [scanLoop]
  | succ n ih =>
      intro buf pos lines
      by_cases h1 : buf.getD pos NUL = '\n'
      · simp only [scanLoop]
        rw [if_pos h1, if_pos h1,
          ih _ 0 (lines ++ [String.mk (cString (buf.take pos))]),
          ih _ 0 ([] ++ [String.mk (cString (buf.take pos))])]
        simp
      · by_cases h2 : 64 - pos ≤ 1
        · simp only [scanLoop]
          rw [if_neg h1, if_neg h1, if_pos h2, if_pos h2]
          simp
        · simp only [scanLoop]
          rw [if_neg h1, if_neg h1, if_neg h2, if_neg h2]
          exact ih buf (pos + 1) lines

theorem scanLoop_overflow (count : Nat) :
    ∀ (buf : List Char) (pos : Nat) (lines : List String),
    buf.length = 64 → pos + count = 64 → 0 < count →
    (∀ i, i < count → buf.getD (pos + i) NUL ≠ '\n') →
    scanLoop buf pos count lines = (List.replicate 64 NUL, 0, lines, -3) := by
  induction count with
  | zero =>
      intro _ _ _ _ _ h0
      omega
  | succ n ih =>
      intro buf pos lines hlen hsum _ hnl
      have hnot : ¬ buf.getD pos NUL = '\n' := by
        have := hnl 0 (by omega)
        simpa using this
      rcases Nat.eq_zero_or_pos n with rfl | hn
      · simp only [scanLoop, hnot, if_false]
        rw [if_pos (by omega)]
      · simp only [scanLoop, hnot, if_false]
        rw [if_neg (by omega)]
        refine ih buf (pos + 1) lines hlen (by omega) hn ?_
        intro i hi
        have := hnl (i + 1) (by omega)
        rw [show pos + 1 + i = pos + (i + 1) from by omega]
        exact this

theorem scanLoop_line (pre : List Char) :
    ∀ (buf : List Char) (pos : Nat) (rest : List Char) (lines : List String),
    buf.length = 64 →
    pos + pre.length + 1 + rest.length ≤ 64 →
    (∀ i, i < pre.length → buf.getD (pos + i) NUL = pre.getD i NUL) →
    (∀ c ∈ pre, c ≠ '\n') →
    buf.getD (pos + pre.length) NUL = '\n' →
    (∀ i, i < rest.length →
      buf.getD (pos + pre.length + 1 + i) NUL = rest.getD i NUL) →
    scanLoop buf pos (pre.length + 1 + rest.length) lines =
      scanLoop (rest ++ List.replicate (64 - rest.length) NUL) 0 rest.length
        (lines ++ [String.mk (cString (buf.take (pos + pre.length)))]) := by
  induction pre with
  | nil =>
      intro buf pos rest lines hlen hle hpre hprenl hnl hrest
      rw [show ([] : List Char).length + 1 + rest.length = rest.length + 1
        from by simp [Nat.add_comm]]
      have hnl' : buf.getD pos NUL = '\n' := by simpa using hnl
      simp only [scanLoop]
      rw [if_pos hnl']
      have hmv : (buf.drop (pos + 1)).take rest.length = rest := by
        apply List.ext_getElem?
        intro n
        by_cases hn : n < rest.length
        · rw [List.getElem?_take_of_lt hn, List.getElem?_drop]
          have h1 : pos + 1 + n < buf.length := by simp at hle; omega
          have := hrest n hn
          rw [show pos + ([] : List Char).length + 1 + n = pos + 1 + n
            from by simp] at this
          simp only [List.getD_eq_getElem?_getD] at this
          rw [List.getElem?_eq_getElem h1, List.getElem?_eq_getElem hn]
            at this
          simp only [Option.getD_some] at this
          rw [List.getElem?_eq_getElem h1, List.getElem?_eq_getElem hn]
          exact congrArg some this
        · have hlt : (buf.drop (pos + 1)).length = buf.length - (pos + 1) :=
            List.length_drop _ _
          rw [List.getElem?_eq_none, List.getElem?_eq_none]
          · omega
          · simp
            omega
      rw [hmv]
      simp
  | cons a pre ih =>
      intro buf pos rest lines hlen hle hpre hprenl hnl hrest
      rw [show (a :: pre).length + 1 + rest.length =
        (pre.length + 1 + rest.length) + 1 from by simp only [List.length_cons]; omega]
      have ha : buf.getD pos NUL = a := by
        have := hpre 0 (by simp)
        simpa using this
      have hanl : ¬ buf.getD pos NUL = '\n' := by
        rw [ha]
        exact hprenl a (by simp)
      simp only [scanLoop]
      rw [if_neg hanl, if_neg (by simp only [List.length_cons] at hle; omega)]
      have hstep := ih buf (pos + 1) rest lines hlen
        (by simp only [List.length_cons] at hle; omega)
        (fun i hi => by
          have := hpre (i + 1) (by simp only [List.length_cons]; omega)
          rw [show pos + 1 + i = pos + (i + 1) from by omega]
          simpa using this)
        (fun c hc => hprenl c (by simp [hc]))
        (by
          rw [show pos + 1 + pre.length = pos + (a :: pre).length
            from by simp only [List.length_cons]; omega]
          exact hnl)
        (fun i hi => by
          rw [show pos + 1 + pre.length + 1 + i =
            pos + (a :: pre).length + 1 + i
            from by simp only [List.length_cons]; omega]
          exact hrest i hi)
      rw [hstep, show pos + 1 + pre.length = pos + (a :: pre).length
        from by simp only [List.length_cons]; omega]

theorem getD_append_left (l₁ l₂ : List Char) (i : Nat) (h : i < l₁.length)
    (d : Char) : (l₁ ++ l₂).getD i d = l₁.getD i d := by
  rw [List.getD_eq_getElem?_getD, List.getD_eq_getElem?_getD,
    List.getElem?_append_left h]

theorem getD_append_right (l₁ l₂ : List Char) (i : Nat)
    (h : l₁.length ≤ i) (d : Char) :
    (l₁ ++ l₂).getD i d = l₂.getD (i - l₁.length) d := by
  rw [List.getD_eq_getElem?_getD, List.getD_eq_getElem?_getD,
    List.getElem?_append_right h]

theorem writeChunk_length (buf : List Char) (pos : Nat) (chunk : List Char)
    (hlen : buf.length = 64) (hcap : pos + chunk.length ≤ 64) :
    (writeChunk buf pos chunk).length = 64 := by
  unfold writeChunk
  simp only [List.length_append, List.length_take, List.length_drop, hlen]
  omega

theorem writeChunk_getD (buf : List Char) (pos : Nat) (chunk : List Char)
    (hpos : pos ≤ buf.length) (i : Nat) (hi : i < chunk.length) :
    (writeChunk buf pos chunk).getD (pos + i) NUL = chunk.getD i NUL := by
  unfold writeChunk
  have ht : (buf.take pos).length = pos := by
    simp [List.length_take]
    omega
  rw [List.append_assoc, getD_append_right _ _ _ (by omega) NUL,
    getD_append_left _ _ _ (by omega) NUL, ht]
  congr 1
  omega

theorem writeChunk_take_line (buf : List Char) (pos : Nat)
    (pre sfx : List Char) (hpos : pos ≤ buf.length) :
    (writeChunk buf pos (pre ++ sfx)).take (pos + pre.length) =
      buf.take pos ++ pre := by
  unfold writeChunk
  rw [show buf.take pos ++ (pre ++ sfx) ++
      buf.drop (pos + (pre ++ sfx).length) =
    (buf.take pos ++ pre) ++ (sfx ++ buf.drop (pos + (pre ++ sfx).length))
    from by simp [List.append_assoc]]
  exact List.take_left' (by simp [List.length_take]; omega)

/-- C7: client line framing.  (i) If the newly read bytes fill the
64-byte buffer (`pos + |chunk| = 64`) without containing a newline —
i.e. the client line exceeds 63 bytes — the whole buffer is zero-filled,
the write position resets to 0, nothing is handed to the command
translator, `process_input` returns -3, and `main` keeps the connection
open (`connCloses (-3) = false`).  (ii) If the read contains a newline,
the bytes before it (joined with the pending prefix), NUL-terminated,
are handed to the command translator as the first line, and the bytes
after the newline are moved down to offset 0 (zero-filled tail) before
scanning continues. -/
theorem c7_input_framing (buf : List Char) (pos : Nat) (chunk : List Char)
    (hlen : buf.length = 64) (hcap : pos + chunk.length ≤ 64) :
    (pos + chunk.length = 64 → (∀ c ∈ chunk, c ≠ '\n') → chunk ≠ [] →
      processInput buf pos chunk = (List.replicate 64 NUL, 0, [], -3) ∧
      connCloses (-3) = false) ∧
    (∀ pre rest, chunk = pre ++ '\n' :: rest → (∀ c ∈ pre, c ≠ '\n') →
      processInput buf pos chunk =
        scanLoop (rest ++ List.replicate (64 - rest.length) NUL) 0
          rest.length [String.mk (cString (buf.take pos ++ pre))] ∧
      ∃ more, (processInput buf pos chunk).2.2.1 =
        String.mk (cString (buf.take pos ++ pre)) :: more) := by
  have hpos : pos ≤ buf.length := by omega
  have hblen := writeChunk_length buf pos chunk hlen hcap
  constructor
  · intro hfull hnonl hne
    have hlc : ¬ chunk.length = 0 := by
      simpa using fun h => hne (List.length_eq_zero.mp h)
    constructor
    · unfold processInput
      rw [if_neg hlc]
      apply scanLoop_overflow chunk.length (writeChunk buf pos chunk) pos []
        hblen (by omega) (by omega)
      intro i hi
      rw [writeChunk_getD buf pos chunk hpos i hi]
      have hm : chunk.getD i NUL ∈ chunk := by
        rw [List.getD_eq_getElem?_getD, List.getElem?_eq_getElem hi]
        simp only [Option.getD_some]
        exact List.getElem_mem _
      exact hnonl _ hm
    · decide
  · intro pre rest hchunk hprenl
    subst hchunk
    have hlc : ¬ (pre ++ '\n' :: rest).length = 0 := by simp
    have hcl : (pre ++ '\n' :: rest).length =
        pre.length + 1 + rest.length := by
      simp only [List.length_append, List.length_cons]
      omega
    have hline : processInput buf pos (pre ++ '\n' :: rest) =
        scanLoop (rest ++ List.replicate (64 - rest.length) NUL) 0
          rest.length [String.mk (cString (buf.take pos ++ pre))] := by
      unfold processInput
      rw [if_neg hlc, hcl]
      rw [scanLoop_line pre (writeChunk buf pos (pre ++ '\n' :: rest)) pos
        rest [] hblen (by omega)
        (fun i hi => by
          rw [writeChunk_getD buf pos _ hpos i (by simp; omega)]
          exact getD_append_left pre ('\n' :: rest) i hi NUL)
        hprenl
        (by
          rw [writeChunk_getD buf pos _ hpos pre.length (by simp)]
          rw [getD_append_right pre ('\n' :: rest) pre.length le_rfl NUL]
          simp)
        (fun i hi => by
          rw [show pos + pre.length + 1 + i = pos + (pre.length + 1 + i)
            from by omega]
          rw [writeChunk_getD buf pos _ hpos (pre.length + 1 + i)
            (by simp; omega)]
          rw [getD_append_right pre ('\n' :: rest) (pre.length + 1 + i)
            (by omega) NUL]
          rw [show pre.length + 1 + i - pre.length = i + 1 from by omega]
          simp)]
      rw [writeChunk_take_line buf pos pre ('\n' :: rest) hpos]
      simp
    refine ⟨hline, ?_⟩
    rw [hline, scanLoop_acc]
    exact ⟨_, rfl⟩

theorem c7_input_framing_witness :
    processInput (List.replicate 64 NUL) 0 (List.replicate 64 'a') =
      (List.replicate 64 NUL, 0, [], -3) ∧ connCloses (-3) = false :=
  (c7_input_framing (List.replicate 64 NUL) 0 (List.replicate 64 'a')
    (by simp) (by simp)).1 (by simp)
    (by
      intro c hc
      rw [List.eq_of_mem_replicate hc]
      decide)
    (by simp)
